import Mathlib

/-!
The FreeRTOS application file of hello_blink_stm32, `Core/Src/app_freertos.c`

The file declares two threads and their entry functions. Every statement of
the three functions is a call of an external function whose result is
discarded, so each function is embedded as a control-flow machine: a program
point issues one call (`instr`) and, given the value the call returned,
moves to the next program point (`next`). A function has returned when it
stands at its closing brace, where no call is issued.
-/

namespace AppFreertos

/-! ## External calls -/

/-- Arguments `GPIO_PIN_RESET` / `GPIO_PIN_SET` of `HAL_GPIO_WritePin`. -/
inductive GPIO_PinState
  | GPIO_PIN_RESET
  | GPIO_PIN_SET
  deriving DecidableEq

/-- Symbolic names of GPIO ports. The source names `GPIOA` only; the other
names make the pin map of the sink wider than the one line the tasks use. -/
inductive GPIO_Port
  | GPIOA
  | GPIOB
  | GPIOC
  deriving DecidableEq

/-- The pin argument `GPIO_PIN_5`, kept as the number of the pin. -/
def GPIO_PIN_5 : Nat := 5

/-- Thread priorities of `osPriority_t` (the source uses `osPriorityNormal`). -/
inductive osPriority_t
  | osPriorityLow
  | osPriorityNormal
  | osPriorityHigh
  deriving DecidableEq

/-- The fields of `osThreadAttr_t` that the source initialises. -/
structure osThreadAttr_t where
  name : String
  priority : osPriority_t
  stack_size : Nat
  deriving DecidableEq

/-- Functions whose address is passed to `osThreadNew`. -/
inductive ThreadFunc
  | StartTask01
  | StartTask02
  deriving DecidableEq

/-- One call of an external function, with its arguments. The `argument`
parameter of `osThreadNew` is `none` for `NULL`. -/
inductive Effect
  | HAL_GPIO_WritePin (port : GPIO_Port) (pin : Nat) (state : GPIO_PinState)
  | printf (text : String)
  | osDelay (ticks : Nat)
  | osThreadNew (func : ThreadFunc) (argument : Option Nat) (attr : osThreadAttr_t)
  deriving DecidableEq

/-! ## Control-flow machines -/

/-- A function body as a machine over states `σ`: `instr s` is the external
call issued at `s` (`none` when the function has returned), `next s r` is the
state after that call returned the value `r`. -/
structure Code (σ : Type) where
  instr : σ → Option Effect
  next : σ → Int → σ

/-- Run at most `fuel` calls from state `s`. `env i` is the value returned by
the `i`-th call from here on. Result: the calls issued, in order, and the
state reached. -/
def Code.exec {σ : Type} (c : Code σ) : Nat → (Nat → Int) → σ → List Effect × σ
  | 0, _, s => ([], s)
  | fuel + 1, env, s =>
    match c.instr s with
    | none => ([], s)
    | some e =>
      let r := c.exec fuel (fun i => env (i + 1)) (c.next s (env 0))
      (e :: r.1, r.2)

/-! ## `StartTask01` (lines 114-129) -/

/-- Program points of `StartTask01`, named by source line; `line129` is the
closing brace of the function. -/
inductive Loc01
  | line120
  | line121
  | line123
  | line124
  | line125
  | line126
  | line129
  deriving DecidableEq

/-- The string literal of line 121 (concatenated with the empty literal of
line 122). -/
def ledOn : String := "Task01 - led ON\n\r"

/-- The string literal of line 125. -/
def ledOff : String := "Task01 - led OFF\n\r"

/-- Body of `StartTask01`: `for(;;)` over six calls, every result discarded.
The loop has no condition and no `break`, so no program point leads to
`line129`. -/
def StartTask01 : Code Loc01 where
  instr
    | .line120 => some (.HAL_GPIO_WritePin .GPIOA GPIO_PIN_5 .GPIO_PIN_SET)
    | .line121 => some (.printf ledOn)
    | .line123 => some (.osDelay 500)
    | .line124 => some (.HAL_GPIO_WritePin .GPIOA GPIO_PIN_5 .GPIO_PIN_RESET)
    | .line125 => some (.printf ledOff)
    | .line126 => some (.osDelay 500)
    | .line129 => none
  next
    | .line120, _ => .line121
    | .line121, _ => .line123
    | .line123, _ => .line124
    | .line124, _ => .line125
    | .line125, _ => .line126
    | .line126, _ => .line120
    | .line129, _ => .line129

/-- State `OutputHigh` of the blink cycle: the head of the loop body. -/
def OutputHigh : Loc01 := .line120

/-- The six calls of one pass through the loop body of `StartTask01`. -/
def blinkCycle : List Effect :=
  [.HAL_GPIO_WritePin .GPIOA GPIO_PIN_5 .GPIO_PIN_SET, .printf ledOn, .osDelay 500,
   .HAL_GPIO_WritePin .GPIOA GPIO_PIN_5 .GPIO_PIN_RESET, .printf ledOff, .osDelay 500]

/-! ## `StartTask02` (lines 138-148) -/

/-- Program points of `StartTask02`, named by source line; `line148` is the
closing brace of the function. -/
inductive Loc02
  | line144
  | line145
  | line148
  deriving DecidableEq

/-- The string literal of line 144. -/
def helloWorld : String := "Task02 - Hello World\n\r"

/-- Body of `StartTask02`: `for(;;)` over two calls, every result discarded. -/
def StartTask02 : Code Loc02 where
  instr
    | .line144 => some (.printf helloWorld)
    | .line145 => some (.osDelay 800)
    | .line148 => none
  next
    | .line144, _ => .line145
    | .line145, _ => .line144
    | .line148, _ => .line148

/-- State `Emit` of the hello cycle: the head of the loop body. -/
def Emit : Loc02 := .line144

/-- The two calls of one pass through the loop body of `StartTask02`. -/
def helloCycle : List Effect := [.printf helloWorld, .osDelay 800]

/-! ## `MX_FREERTOS_Init` (lines 48-60 and 72-106) -/

/-- Initialiser of `blink_task_attributes` (lines 49-53). -/
def blink_task_attributes : osThreadAttr_t :=
  { name := "blink_task", priority := .osPriorityNormal, stack_size := 128 * 4 }

/-- Initialiser of `hello_task_attributes` (lines 56-60). -/
def hello_task_attributes : osThreadAttr_t :=
  { name := "hello_task", priority := .osPriorityNormal, stack_size := 128 * 4 }

/-- The two file-scope handles. An `osThreadId_t` is kept as the integer
value of the pointer; `0` is `NULL`. -/
structure Globals where
  blink_taskHandle : Int
  hello_taskHandle : Int
  deriving DecidableEq

/-- Program points of `MX_FREERTOS_Init`; `line106` is the closing brace. -/
inductive LocInit
  | line93
  | line96
  | line106
  deriving DecidableEq

/-- Body of `MX_FREERTOS_Init`: two calls of `osThreadNew`; each result is
assigned to its handle and not inspected. -/
def MX_FREERTOS_Init : Code (LocInit × Globals) where
  instr
    | (.line93, _) => some (.osThreadNew .StartTask01 none blink_task_attributes)
    | (.line96, _) => some (.osThreadNew .StartTask02 none hello_task_attributes)
    | (.line106, _) => none
  next
    | (.line93, g), r => (.line96, { g with blink_taskHandle := r })
    | (.line96, g), r => (.line106, { g with hello_taskHandle := r })
    | (.line106, g), _ => (.line106, g)

/-- Modelled from the spec: the task-creation contract
`create_task(...) -> TaskHandle | ResourceExhaustion` of the scheduler, whose
code is not among the sources. Given the calls made and the values they
returned, the entry functions the scheduler holds: a call of `osThreadNew`
that returned a handle registers its entry function, one that returned `NULL`
registers nothing. The scheduler runs registered entry functions only. -/
def registered : List Effect → (Nat → Int) → List ThreadFunc
  | [], _ => []
  | .osThreadNew f _ _ :: es, env =>
    if env 0 = 0 then registered es (fun i => env (i + 1))
    else f :: registered es (fun i => env (i + 1))
  | _ :: es, env => registered es (fun i => env (i + 1))

/-- Calls that belong to a task loop: pin writes, prints and delays. -/
def Effect.isTaskCall : Effect → Bool
  | .osThreadNew _ _ _ => false
  | _ => true

/-! ## Ideal timing -/

/-- Modelled from the spec: the delay primitive under ideal timing. A call
`osDelay d` returns exactly `d` ms after it was made (one tick is one
millisecond); every other call takes no time. -/
def Effect.duration : Effect → Nat
  | .osDelay d => d
  | _ => 0

/-- Simulate `T` ms under ideal timing: run the machine from state `s` at
clock `t`, stamping each call with the instant at which it is made, until the
clock has reached `T`. The calls made at instants `t < T` are those of the
simulated window. `none` when `fuel` calls did not reach the horizon. -/
def Code.simulate {σ : Type} (c : Code σ) (T : Nat) :
    Nat → (Nat → Int) → Nat → σ → Option (List (Nat × Effect))
  | 0, _, t, _ => if T ≤ t then some [] else none
  | fuel + 1, env, t, s =>
    if T ≤ t then some []
    else
      match c.instr s with
      | none => some []
      | some e =>
        (c.simulate T fuel (fun i => env (i + 1)) (t + e.duration) (c.next s (env 0))).map
          (fun r => (t, e) :: r)

/-- The calls of a stamped trace, without the stamps. -/
def calls (r : List (Nat × Effect)) : List Effect := r.map Prod.snd

/-! ## Observations -/

/-- The line a call writes to the character stream, if it writes one. -/
def Effect.line : Effect → Option String
  | .printf s => some s
  | _ => none

/-- The level a call writes to line `pin` of `port`, if it writes that line. -/
def Effect.levelWritten (port : GPIO_Port) (pin : Nat) : Effect → Option GPIO_PinState
  | .HAL_GPIO_WritePin p i v => if p = port ∧ i = pin then some v else none
  | _ => none

/-- The lines written to the character stream, in order. -/
def logLines (es : List Effect) : List String := es.filterMap Effect.line

/-- The levels written to line `pin` of `port`, in order. -/
def pinWrites (port : GPIO_Port) (pin : Nat) (es : List Effect) : List GPIO_PinState :=
  es.filterMap (Effect.levelWritten port pin)

/-- The list `a, b, a, b, ...` of length `n`. -/
def alternate {α : Type} (a b : α) : Nat → List α
  | 0 => []
  | 1 => [a]
  | n + 2 => a :: b :: alternate a b n

/-- Number of "ON"/"OFF" pairs in a log: an ON line directly followed by an
OFF line counts once. -/
def onOffPairs : List String → Nat
  | [] => 0
  | [_] => 0
  | a :: b :: rest =>
    if a = ledOn ∧ b = ledOff then onOffPairs rest + 1 else onOffPairs (b :: rest)

/-- Modelled from the spec: the Output Sink of section 6, whose code is not
among the sources: the level of every digital line and the append-only
character stream. -/
structure Sink where
  level : GPIO_Port → Nat → GPIO_PinState
  stream : List String

/-- Modelled from the spec: `set_digital_output(line_id, level)` sets the
level of that line and no other, `write_text(bytes)` appends to the stream,
the remaining calls leave the sink as it is. -/
def Sink.apply (k : Sink) : Effect → Sink
  | .HAL_GPIO_WritePin p i v =>
    { k with level := fun q j => if q = p ∧ j = i then v else k.level q j }
  | .printf s => { k with stream := k.stream ++ [s] }
  | _ => k

/-- The sink after a sequence of calls. -/
def Sink.run (k : Sink) (es : List Effect) : Sink := es.foldl Sink.apply k

/-! ## Interleaving of two tasks -/

/-- The task that issued a call. -/
inductive TaskId
  | A
  | B
  deriving DecidableEq

/-- Items of one task, each marked with the task. -/
def tagged {α : Type} (i : TaskId) (xs : List α) : List (TaskId × α) := xs.map fun x => (i, x)

/-- Whether `zs` is an order-preserving merge of `xs` and `ys`. -/
def isInterleaving {α : Type} [DecidableEq α] : List α → List α → List α → Bool
  | xs, ys, [] => xs.isEmpty && ys.isEmpty
  | xs, ys, z :: zs =>
    (match xs with
      | [] => false
      | x :: xs1 => decide (x = z) && isInterleaving xs1 ys zs) ||
    (match ys with
      | [] => false
      | y :: ys1 => decide (y = z) && isInterleaving xs ys1 zs)

/-- The items of task `i` in a combined execution, in order. -/
def project {α : Type} (i : TaskId) (zs : List (TaskId × α)) : List α :=
  (zs.filter fun p => decide (p.1 = i)).map Prod.snd

/-! ## Lemmas on `exec` -/

theorem exec_add {σ : Type} (c : Code σ) (a b : Nat) :
    ∀ (env : Nat → Int) (s : σ),
      c.exec (a + b) env s =
        ((c.exec a env s).1 ++ (c.exec b (fun i => env (i + a)) (c.exec a env s).2).1,
         (c.exec b (fun i => env (i + a)) (c.exec a env s).2).2) := by
  induction a with
  | zero => intro env s; simp [Code.exec]
  | succ a ih =>
    intro env s
    have h : a + 1 + b = (a + b) + 1 := by omega
    rw [h]
    cases hi : c.instr s with
    | none =>
      cases b with
      | zero => simp [Code.exec, hi]
      | succ b => simp [Code.exec, hi]
    | some e =>
      simp only [Code.exec, hi]
      rw [ih]
      simp [Nat.add_assoc]

theorem StartTask01_cycle (env : Nat → Int) :
    StartTask01.exec 6 env OutputHigh = (blinkCycle, OutputHigh) := rfl

theorem StartTask01_cycles (n : Nat) :
    ∀ env : Nat → Int,
      StartTask01.exec (6 * n) env OutputHigh =
        ((List.replicate n blinkCycle).flatten, OutputHigh) := by
  induction n with
  | zero => intro env; rfl
  | succ n ih =>
    intro env
    have h : 6 * (n + 1) = 6 + 6 * n := by omega
    rw [h, exec_add, StartTask01_cycle, ih]
    simp [List.replicate_succ]

theorem StartTask01_live (m : Nat) :
    ∀ (env : Nat → Int) (s : Loc01), s ≠ .line129 →
      (StartTask01.exec m env s).1.length = m ∧ (StartTask01.exec m env s).2 ≠ .line129 := by
  induction m with
  | zero => intro env s hs; exact ⟨rfl, hs⟩
  | succ m ih =>
    intro env s hs
    cases s with
    | line129 => exact absurd rfl hs
    | line120 =>
      have := ih (fun i => env (i + 1)) .line121 (by decide)
      simpa [Code.exec, StartTask01] using this
    | line121 =>
      have := ih (fun i => env (i + 1)) .line123 (by decide)
      simpa [Code.exec, StartTask01] using this
    | line123 =>
      have := ih (fun i => env (i + 1)) .line124 (by decide)
      simpa [Code.exec, StartTask01] using this
    | line124 =>
      have := ih (fun i => env (i + 1)) .line125 (by decide)
      simpa [Code.exec, StartTask01] using this
    | line125 =>
      have := ih (fun i => env (i + 1)) .line126 (by decide)
      simpa [Code.exec, StartTask01] using this
    | line126 =>
      have := ih (fun i => env (i + 1)) .line120 (by decide)
      simpa [Code.exec, StartTask01] using this

theorem exec_halted {σ : Type} (c : Code σ) (k : Nat) (env : Nat → Int) (s : σ)
    (h : c.instr s = none) : c.exec k env s = ([], s) := by
  cases k with
  | zero => rfl
  | succ k => simp [Code.exec, h]

theorem exec_reply_irrelevant {σ : Type} (c : Code σ)
    (h : ∀ (s : σ) (r r' : Int), c.next s r = c.next s r') (fuel : Nat) :
    ∀ (env env' : Nat → Int) (s : σ), c.exec fuel env s = c.exec fuel env' s := by
  induction fuel with
  | zero => intro env env' s; rfl
  | succ fuel ih =>
    intro env env' s
    cases hi : c.instr s with
    | none => simp [Code.exec, hi]
    | some e =>
      simp only [Code.exec, hi]
      rw [h s (env 0) (env' 0), ih (fun i => env (i + 1)) (fun i => env' (i + 1))]

theorem StartTask01_next_irrelevant (s : Loc01) (r r' : Int) :
    StartTask01.next s r = StartTask01.next s r' := by
  cases s <;> rfl

theorem StartTask02_next_irrelevant (s : Loc02) (r r' : Int) :
    StartTask02.next s r = StartTask02.next s r' := by
  cases s <;> rfl

theorem StartTask02_cycle (env : Nat → Int) :
    StartTask02.exec 2 env Emit = (helloCycle, Emit) := rfl

theorem StartTask02_cycles (n : Nat) :
    ∀ env : Nat → Int,
      StartTask02.exec (2 * n) env Emit =
        ((List.replicate n helloCycle).flatten, Emit) := by
  induction n with
  | zero => intro env; rfl
  | succ n ih =>
    intro env
    have h : 2 * (n + 1) = 2 + 2 * n := by omega
    rw [h, exec_add, StartTask02_cycle, ih]
    simp [List.replicate_succ]

theorem StartTask02_live (m : Nat) :
    ∀ (env : Nat → Int) (s : Loc02), s ≠ .line148 →
      (StartTask02.exec m env s).1.length = m ∧ (StartTask02.exec m env s).2 ≠ .line148 := by
  induction m with
  | zero => intro env s hs; exact ⟨rfl, hs⟩
  | succ m ih =>
    intro env s hs
    cases s with
    | line148 => exact absurd rfl hs
    | line144 =>
      have := ih (fun i => env (i + 1)) .line145 (by decide)
      simpa [Code.exec, StartTask02] using this
    | line145 =>
      have := ih (fun i => env (i + 1)) .line144 (by decide)
      simpa [Code.exec, StartTask02] using this

theorem StartTask01_instr_ne_none (s : Loc01) (h : s ≠ .line129) :
    StartTask01.instr s ≠ none := by
  cases s <;> simp_all [StartTask01]

theorem StartTask02_instr_ne_none (s : Loc02) (h : s ≠ .line148) :
    StartTask02.instr s ≠ none := by
  cases s <;> simp_all [StartTask02]

theorem MX_FREERTOS_Init_exec (env : Nat → Int) (g : Globals) (k : Nat) :
    MX_FREERTOS_Init.exec (2 + k) env (.line93, g) =
      ([.osThreadNew .StartTask01 none blink_task_attributes,
        .osThreadNew .StartTask02 none hello_task_attributes],
       (.line106, { blink_taskHandle := env 0, hello_taskHandle := env 1 })) := by
  have h : 2 + k = k + 1 + 1 := by omega
  rw [h]
  simp [Code.exec, MX_FREERTOS_Init, exec_halted]

/-! ## Lemmas on `simulate` -/

theorem simulate_horizon {σ : Type} (c : Code σ) (T fuel : Nat) (env : Nat → Int) (t : Nat)
    (s : σ) (h : T ≤ t) : c.simulate T fuel env t s = some [] := by
  cases fuel <;> simp [Code.simulate, h]

theorem simulate_mono {σ : Type} (c : Code σ) (T : Nat) (fuel : Nat) :
    ∀ (env : Nat → Int) (t : Nat) (s : σ) (r : List (Nat × Effect)),
      c.simulate T fuel env t s = some r → ∀ k, c.simulate T (fuel + k) env t s = some r := by
  induction fuel with
  | zero =>
    intro env t s r h k
    by_cases ht : T ≤ t
    · rw [simulate_horizon c T _ env t s ht]
      rw [simulate_horizon c T _ env t s ht] at h
      exact h
    · simp [Code.simulate, ht] at h
  | succ fuel ih =>
    intro env t s r h k
    have hk : fuel + 1 + k = (fuel + k) + 1 := by omega
    rw [hk]
    by_cases ht : T ≤ t
    · rw [simulate_horizon c T _ env t s ht]
      rw [simulate_horizon c T _ env t s ht] at h
      exact h
    · cases hi : c.instr s with
      | none =>
        simp only [Code.simulate, ht, hi, if_false] at h ⊢
        exact h
      | some e =>
        simp only [Code.simulate, ht, hi, if_false] at h ⊢
        cases hr : c.simulate T fuel (fun i => env (i + 1)) (t + e.duration) (c.next s (env 0)) with
        | none => simp [hr] at h
        | some r' =>
          rw [ih _ _ _ _ hr k]
          rw [hr] at h
          exact h

theorem sim01_unfold (T n : Nat) (env : Nat → Int) (t : Nat) :
    StartTask01.simulate T (6 * n + 6) env t OutputHigh =
      if T ≤ t then some []
      else if T ≤ t + 500 then
        some [(t, .HAL_GPIO_WritePin .GPIOA GPIO_PIN_5 .GPIO_PIN_SET), (t, .printf ledOn),
              (t, .osDelay 500)]
      else
        (StartTask01.simulate T (6 * n) (fun i => env (i + 6)) (t + 1000) OutputHigh).map
          (fun r =>
            (t, .HAL_GPIO_WritePin .GPIOA GPIO_PIN_5 .GPIO_PIN_SET) :: (t, .printf ledOn) ::
            (t, .osDelay 500) ::
            (t + 500, .HAL_GPIO_WritePin .GPIOA GPIO_PIN_5 .GPIO_PIN_RESET) ::
            (t + 500, .printf ledOff) :: (t + 500, .osDelay 500) :: r) := by
  by_cases h1 : T ≤ t
  · simp [simulate_horizon, h1]
  · by_cases h2 : T ≤ t + 500
    · simp [Code.simulate, StartTask01, OutputHigh, Effect.duration, h1, h2, simulate_horizon]
    · have h3 : ¬ T ≤ t + 500 + 0 := h2
      simp [Code.simulate, StartTask01, OutputHigh, Effect.duration, h1, h2, Nat.add_assoc]
      rfl

theorem sim01_closed (T n : Nat) :
    ∀ (t : Nat) (env : Nat → Int), T ≤ t + 1000 * n →
      ∃ r, StartTask01.simulate T (6 * n) env t OutputHigh = some r ∧
        logLines (calls r) = alternate ledOn ledOff ((T - t + 499) / 500) ∧
        pinWrites .GPIOA GPIO_PIN_5 (calls r) =
          alternate GPIO_PinState.GPIO_PIN_SET GPIO_PinState.GPIO_PIN_RESET
            ((T - t + 499) / 500) := by
  induction n with
  | zero =>
    intro t env h
    have h0 : (T - t + 499) / 500 = 0 := by omega
    refine ⟨[], simulate_horizon _ _ _ _ _ _ (by omega), ?_, ?_⟩ <;> rw [h0] <;> rfl
  | succ n ih =>
    intro t env h
    have hn : 6 * (n + 1) = 6 * n + 6 := by omega
    rw [hn, sim01_unfold]
    by_cases h1 : T ≤ t
    · have h0 : (T - t + 499) / 500 = 0 := by omega
      refine ⟨[], by simp [h1], ?_, ?_⟩ <;> rw [h0] <;> rfl
    · by_cases h2 : T ≤ t + 500
      · have h0 : (T - t + 499) / 500 = 1 := by omega
        refine ⟨_, by rw [if_neg h1, if_pos h2], ?_, ?_⟩ <;> rw [h0] <;>
          simp [logLines, pinWrites, calls, alternate, Effect.line, Effect.levelWritten]
      · obtain ⟨r, hr, hl, hp⟩ := ih (t + 1000) (fun i => env (i + 6)) (by omega)
        have h0 : (T - t + 499) / 500 = (T - (t + 1000) + 499) / 500 + 2 := by omega
        refine ⟨_, by rw [if_neg h1, if_neg h2, hr]; rfl, ?_, ?_⟩
        · rw [h0, alternate, ← hl]
          simp [logLines, calls, Effect.line]
        · rw [h0, alternate, ← hp]
          simp [pinWrites, calls, Effect.levelWritten]

theorem sim02_unfold (T n : Nat) (env : Nat → Int) (t : Nat) :
    StartTask02.simulate T (2 * n + 2) env t Emit =
      if T ≤ t then some []
      else
        (StartTask02.simulate T (2 * n) (fun i => env (i + 2)) (t + 800) Emit).map
          (fun r => (t, .printf helloWorld) :: (t, .osDelay 800) :: r) := by
  by_cases h1 : T ≤ t
  · simp [simulate_horizon, h1]
  · simp [Code.simulate, StartTask02, Emit, Effect.duration, h1, Nat.add_assoc]
    rfl

theorem sim02_closed (T n : Nat) :
    ∀ (t : Nat) (env : Nat → Int), T ≤ t + 800 * n →
      ∃ r, StartTask02.simulate T (2 * n) env t Emit = some r ∧
        logLines (calls r) = List.replicate ((T - t + 799) / 800) helloWorld ∧
        pinWrites .GPIOA GPIO_PIN_5 (calls r) = [] := by
  induction n with
  | zero =>
    intro t env h
    have h0 : (T - t + 799) / 800 = 0 := by omega
    refine ⟨[], simulate_horizon _ _ _ _ _ _ (by omega), ?_, rfl⟩
    rw [h0]; rfl
  | succ n ih =>
    intro t env h
    have hn : 2 * (n + 1) = 2 * n + 2 := by omega
    rw [hn, sim02_unfold]
    by_cases h1 : T ≤ t
    · have h0 : (T - t + 799) / 800 = 0 := by omega
      refine ⟨[], by simp [h1], ?_, rfl⟩
      rw [h0]; rfl
    · obtain ⟨r, hr, hl, hp⟩ := ih (t + 800) (fun i => env (i + 2)) (by omega)
      have h0 : (T - t + 799) / 800 = (T - (t + 800) + 799) / 800 + 1 := by omega
      refine ⟨_, by rw [if_neg h1, hr]; rfl, ?_, ?_⟩
      · rw [h0, List.replicate_succ, ← hl]
        simp [logLines, calls, Effect.line]
      · rw [← hp]
        simp [pinWrites, calls, Effect.levelWritten]


theorem sim01_fuel (T fuel : Nat) (env : Nat → Int) (h : 6 * (T / 1000 + 1) ≤ fuel) :
    ∃ r, StartTask01.simulate T fuel env 0 OutputHigh = some r ∧
      logLines (calls r) = alternate ledOn ledOff ((T + 499) / 500) ∧
      pinWrites .GPIOA GPIO_PIN_5 (calls r) =
        alternate GPIO_PinState.GPIO_PIN_SET GPIO_PinState.GPIO_PIN_RESET ((T + 499) / 500) := by
  obtain ⟨r, hr, hl, hp⟩ := sim01_closed T (T / 1000 + 1) 0 env (by omega)
  refine ⟨r, ?_, hl, hp⟩
  have hf : fuel = 6 * (T / 1000 + 1) + (fuel - 6 * (T / 1000 + 1)) := by omega
  rw [hf]
  exact simulate_mono _ _ _ _ _ _ _ hr _

theorem sim02_fuel (T fuel : Nat) (env : Nat → Int) (h : 2 * (T / 800 + 1) ≤ fuel) :
    ∃ r, StartTask02.simulate T fuel env 0 Emit = some r ∧
      logLines (calls r) = List.replicate ((T + 799) / 800) helloWorld ∧
      pinWrites .GPIOA GPIO_PIN_5 (calls r) = [] := by
  obtain ⟨r, hr, hl, hp⟩ := sim02_closed T (T / 800 + 1) 0 env (by omega)
  refine ⟨r, ?_, hl, hp⟩
  have hf : fuel = 2 * (T / 800 + 1) + (fuel - 2 * (T / 800 + 1)) := by omega
  rw [hf]
  exact simulate_mono _ _ _ _ _ _ _ hr _

theorem onOffPairs_alternate (h : Nat) :
    onOffPairs (alternate ledOn ledOff h) = h / 2 := by
  induction h using Nat.strong_induction_on with
  | _ h ih =>
    match h with
    | 0 => rfl
    | 1 => rfl
    | h + 2 =>
      have := ih h (by omega)
      simp only [alternate, onOffPairs, and_self, if_true, this]
      omega

theorem getLast?_alternate {α : Type} (a b : α) (h : Nat) :
    (alternate a b h).getLast? =
      if h = 0 then none else if h % 2 = 1 then some a else some b := by
  induction h using Nat.strong_induction_on with
  | _ h ih =>
    match h with
    | 0 => rfl
    | 1 => rfl
    | 2 => rfl
    | 3 => rfl
    | h + 4 =>
      have := ih (h + 2) (by omega)
      have e : alternate a b (h + 4) = a :: b :: a :: b :: alternate a b h := rfl
      have e2 : alternate a b (h + 2) = a :: b :: alternate a b h := rfl
      rw [e, List.getLast?_cons_cons, List.getLast?_cons_cons, ← e2, this]
      have h1 : (h + 4) % 2 = (h + 2) % 2 := by omega
      simp [h1]

/-! ## Lemmas on the sink and on interleavings -/

theorem apply_level (k : Sink) (e : Effect) (p : GPIO_Port) (i : Nat) :
    (k.apply e).level p i = (e.levelWritten p i).getD (k.level p i) := by
  cases e with
  | HAL_GPIO_WritePin q j v =>
    show (if p = q ∧ i = j then v else k.level p i) =
      (if q = p ∧ j = i then some v else none).getD (k.level p i)
    by_cases h : q = p ∧ j = i
    · rw [if_pos h, if_pos ⟨h.1.symm, h.2.symm⟩]; rfl
    · rw [if_neg h, if_neg (fun hh => h ⟨hh.1.symm, hh.2.symm⟩)]; rfl
  | printf s => rfl
  | osDelay d => rfl
  | osThreadNew f a t => rfl

theorem run_level (es : List Effect) (p : GPIO_Port) (i : Nat) :
    ∀ k : Sink, (k.run es).level p i = ((pinWrites p i es).getLast?).getD (k.level p i) := by
  induction es with
  | nil => intro k; rfl
  | cons e es ih =>
    intro k
    have hrun : k.run (e :: es) = (k.apply e).run es := rfl
    rw [hrun, ih, apply_level]
    cases he : e.levelWritten p i with
    | none => simp [pinWrites, List.filterMap_cons, he]
    | some v =>
      simp only [pinWrites, List.filterMap_cons, he, Option.getD_some]
      cases hl : (List.filterMap (Effect.levelWritten p i) es) with
      | nil => simp
      | cons w ws =>
        rw [List.getLast?_cons_cons]
        cases hg : (w :: ws).getLast? with
        | none => simp at hg
        | some x => rfl

theorem project_interleaving {α : Type} [DecidableEq α] (zs : List (TaskId × α)) :
    ∀ xs ys : List α,
      isInterleaving (tagged .A xs) (tagged .B ys) zs = true →
        project .A zs = xs ∧ project .B zs = ys := by
  induction zs with
  | nil =>
    intro xs ys h
    cases xs <;> cases ys <;> simp_all [isInterleaving, tagged, project]
  | cons z zs ih =>
    intro xs ys h
    simp only [isInterleaving, Bool.or_eq_true] at h
    rcases h with h | h
    · cases xs with
      | nil => simp [tagged] at h
      | cons x xs1 =>
        simp only [tagged, List.map_cons, Bool.and_eq_true, decide_eq_true_eq] at h
        obtain ⟨hz, hrest⟩ := h
        have := ih xs1 ys hrest
        subst hz
        simp only [project] at this ⊢
        simp [List.filter_cons, this.1, this.2]
    · cases ys with
      | nil => simp [tagged] at h
      | cons y ys1 =>
        simp only [tagged, List.map_cons, Bool.and_eq_true, decide_eq_true_eq] at h
        obtain ⟨hz, hrest⟩ := h
        have := ih xs ys1 hrest
        subst hz
        simp only [project] at this ⊢
        simp [List.filter_cons, this.1, this.2]

theorem interleaving_filterMap {α β : Type} [DecidableEq α] (f : α → Option β)
    (zs : List α) :
    ∀ xs ys : List α, isInterleaving xs ys zs = true → ys.filterMap f = [] →
      zs.filterMap f = xs.filterMap f := by
  induction zs with
  | nil =>
    intro xs ys h _
    cases xs <;> simp_all [isInterleaving]
  | cons z zs ih =>
    intro xs ys h hy
    simp only [isInterleaving, Bool.or_eq_true] at h
    rcases h with h | h
    · cases xs with
      | nil => simp at h
      | cons x xs1 =>
        simp only [Bool.and_eq_true, decide_eq_true_eq] at h
        obtain ⟨hz, hrest⟩ := h
        subst hz
        simp [List.filterMap_cons, ih xs1 ys hrest hy]
    · cases ys with
      | nil => simp at h
      | cons y ys1 =>
        simp only [Bool.and_eq_true, decide_eq_true_eq] at h
        obtain ⟨hz, hrest⟩ := h
        subst hz
        cases hf : f y with
        | none =>
          have hy1 : ys1.filterMap f = [] := by simpa [List.filterMap_cons, hf] using hy
          simp [List.filterMap_cons, hf, ih xs ys1 hrest hy1]
        | some b => simp [List.filterMap_cons, hf] at hy

theorem pinWrites_interleaving (p : GPIO_Port) (i : Nat) (xs ys : List Effect)
    (zs : List (TaskId × Effect))
    (h : isInterleaving (tagged .A xs) (tagged .B ys) zs = true)
    (hy : pinWrites p i ys = []) :
    pinWrites p i (zs.map Prod.snd) = pinWrites p i xs := by
  have key := interleaving_filterMap (fun q : TaskId × Effect => q.2.levelWritten p i) zs
    (tagged .A xs) (tagged .B ys) h
    (by simpa [tagged, List.filterMap_map, pinWrites, Function.comp_def] using hy)
  simpa [tagged, List.filterMap_map, pinWrites, Function.comp_def] using key

/-! ## Lemmas on the traces of the two tasks -/

theorem StartTask02_lines (m : Nat) :
    ∀ (env : Nat → Int) (s : Loc02), ∀ line ∈ logLines (StartTask02.exec m env s).1,
      line = helloWorld := by
  induction m with
  | zero => intro env s line h; simp [Code.exec, logLines] at h
  | succ m ih =>
    intro env s line h
    cases s with
    | line148 => simp [Code.exec, StartTask02, logLines] at h
    | line144 =>
      simp only [Code.exec, StartTask02, logLines, List.filterMap_cons, Effect.line,
        List.mem_cons] at h
      rcases h with h | h
      · exact h
      · exact ih _ _ line h
    | line145 =>
      simp only [Code.exec, StartTask02, logLines, List.filterMap_cons, Effect.line] at h
      exact ih _ _ line h

theorem StartTask02_no_writes (p : GPIO_Port) (i : Nat) (m : Nat) :
    ∀ (env : Nat → Int) (s : Loc02), pinWrites p i (StartTask02.exec m env s).1 = [] := by
  induction m with
  | zero => intro env s; rfl
  | succ m ih =>
    intro env s
    cases s with
    | line148 => rfl
    | line144 =>
      simp only [Code.exec, StartTask02, pinWrites, List.filterMap_cons, Effect.levelWritten]
      exact ih _ _
    | line145 =>
      simp only [Code.exec, StartTask02, pinWrites, List.filterMap_cons, Effect.levelWritten]
      exact ih _ _

theorem StartTask01_frame (p : GPIO_Port) (i : Nat) (hpi : p ≠ .GPIOA ∨ i ≠ GPIO_PIN_5)
    (m : Nat) :
    ∀ (env : Nat → Int) (s : Loc01), pinWrites p i (StartTask01.exec m env s).1 = [] := by
  have hne : ¬ (GPIO_Port.GPIOA = p ∧ GPIO_PIN_5 = i) := by
    rintro ⟨h1, h2⟩
    rcases hpi with h | h
    · exact h h1.symm
    · exact h h2.symm
  induction m with
  | zero => intro env s; rfl
  | succ m ih =>
    intro env s
    cases s with
    | line129 => rfl
    | line120 =>
      simp only [Code.exec, StartTask01, pinWrites, List.filterMap_cons, Effect.levelWritten,
        if_neg hne]
      exact ih _ _
    | line121 =>
      simp only [Code.exec, StartTask01, pinWrites, List.filterMap_cons, Effect.levelWritten]
      exact ih _ _
    | line123 =>
      simp only [Code.exec, StartTask01, pinWrites, List.filterMap_cons, Effect.levelWritten]
      exact ih _ _
    | line124 =>
      simp only [Code.exec, StartTask01, pinWrites, List.filterMap_cons, Effect.levelWritten,
        if_neg hne]
      exact ih _ _
    | line125 =>
      simp only [Code.exec, StartTask01, pinWrites, List.filterMap_cons, Effect.levelWritten]
      exact ih _ _
    | line126 =>
      simp only [Code.exec, StartTask01, pinWrites, List.filterMap_cons, Effect.levelWritten]
      exact ih _ _

theorem alternate_add {α : Type} (a b : α) (q j : Nat) :
    alternate a b (2 * q + j) = alternate a b (2 * q) ++ alternate a b j := by
  induction q with
  | zero => simp [alternate]
  | succ q ih =>
    have e1 : 2 * (q + 1) + j = (2 * q + j) + 2 := by omega
    have e2 : 2 * (q + 1) = 2 * q + 2 := by omega
    rw [e1, e2, alternate, alternate, ih]
    simp

theorem pinWrites_cycles (q : Nat) :
    pinWrites .GPIOA GPIO_PIN_5 (List.replicate q blinkCycle).flatten =
      alternate GPIO_PinState.GPIO_PIN_SET GPIO_PinState.GPIO_PIN_RESET (2 * q) := by
  induction q with
  | zero => rfl
  | succ q ih =>
    have e2 : 2 * (q + 1) = 2 * q + 2 := by omega
    rw [e2, alternate, ← ih]
    simp [List.replicate_succ, pinWrites, blinkCycle, Effect.levelWritten]

theorem pinWrites_StartTask01 (m : Nat) (env : Nat → Int) :
    pinWrites .GPIOA GPIO_PIN_5 (StartTask01.exec m env OutputHigh).1 =
      alternate GPIO_PinState.GPIO_PIN_SET GPIO_PinState.GPIO_PIN_RESET ((m + 2) / 3) := by
  obtain ⟨q, r, hr, rfl⟩ : ∃ q r, r < 6 ∧ m = 6 * q + r :=
    ⟨m / 6, m % 6, Nat.mod_lt _ (by norm_num), (Nat.div_add_mod m 6).symm⟩
  rw [exec_add, StartTask01_cycles]
  simp only [pinWrites, List.filterMap_append]
  have hc := pinWrites_cycles q
  simp only [pinWrites] at hc
  rw [hc]
  interval_cases r
  · have e : (6 * q + 0 + 2) / 3 = 2 * q + 0 := by omega
    rw [e, alternate_add]; rfl
  · have e : (6 * q + 1 + 2) / 3 = 2 * q + 1 := by omega
    rw [e, alternate_add]; rfl
  · have e : (6 * q + 2 + 2) / 3 = 2 * q + 1 := by omega
    rw [e, alternate_add]; rfl
  · have e : (6 * q + 3 + 2) / 3 = 2 * q + 1 := by omega
    rw [e, alternate_add]; rfl
  · have e : (6 * q + 4 + 2) / 3 = 2 * q + 2 := by omega
    rw [e, alternate_add]; rfl
  · have e : (6 * q + 5 + 2) / 3 = 2 * q + 2 := by omega
    rw [e, alternate_add]; rfl

/-! ## Properties of the three functions -/

/-- C1: `StartTask01` never returns and its calls are periodic from
`OutputHigh`. For every sequence of call results and every `n`, the first
`6 * n` calls are `n` repetitions of: write PA5 high, print the "led ON" line,
delay 500, write PA5 low, print the "led OFF" line, delay 500; after them the
task is at `OutputHigh` again; and for every `m` the task has issued exactly
`m` calls after `m` steps and stands at a program point that issues a call,
so no reachable state is terminal. -/
theorem StartTask01_periodic (env : Nat → Int) (n : Nat) :
    (StartTask01.exec (6 * n) env OutputHigh).1 =
        (List.replicate n
          [Effect.HAL_GPIO_WritePin .GPIOA GPIO_PIN_5 .GPIO_PIN_SET,
           Effect.printf "Task01 - led ON\n\r", Effect.osDelay 500,
           Effect.HAL_GPIO_WritePin .GPIOA GPIO_PIN_5 .GPIO_PIN_RESET,
           Effect.printf "Task01 - led OFF\n\r", Effect.osDelay 500]).flatten ∧
      (StartTask01.exec (6 * n) env OutputHigh).2 = OutputHigh ∧
      ∀ m : Nat, (StartTask01.exec m env OutputHigh).1.length = m ∧
        StartTask01.instr (StartTask01.exec m env OutputHigh).2 ≠ none := by
  refine ⟨?_, ?_, ?_⟩
  · rw [StartTask01_cycles]; rfl
  · rw [StartTask01_cycles]
  · intro m
    have h := StartTask01_live m env OutputHigh (by decide)
    exact ⟨h.1, StartTask01_instr_ne_none _ h.2⟩

/-- C2: `StartTask02` never returns and its calls are periodic from `Emit`.
For every sequence of call results and every `n`, the first `2 * n` calls are
`n` repetitions of: print the "Hello World" line, delay 800; every line it
prints in any run of `m` steps is that same string; after `n` iterations the
task is at `Emit` again; and after `m` steps it has issued exactly `m` calls
and stands at a program point that issues a call. -/
theorem StartTask02_periodic (env : Nat → Int) (n : Nat) :
    (StartTask02.exec (2 * n) env Emit).1 =
        (List.replicate n
          [Effect.printf "Task02 - Hello World\n\r", Effect.osDelay 800]).flatten ∧
      (StartTask02.exec (2 * n) env Emit).2 = Emit ∧
      (∀ m : Nat, ∀ line ∈ logLines (StartTask02.exec m env Emit).1,
        line = "Task02 - Hello World\n\r") ∧
      ∀ m : Nat, (StartTask02.exec m env Emit).1.length = m ∧
        StartTask02.instr (StartTask02.exec m env Emit).2 ≠ none := by
  refine ⟨?_, ?_, ?_, ?_⟩
  · rw [StartTask02_cycles]; rfl
  · rw [StartTask02_cycles]
  · intro m line h
    exact StartTask02_lines m env Emit line h
  · intro m
    have h := StartTask02_live m env Emit (by decide)
    exact ⟨h.1, StartTask02_instr_ne_none _ h.2⟩

/-- C3: `MX_FREERTOS_Init` issues exactly two calls, both `osThreadNew`, in the
order Task A then Task B: first entry `StartTask01` with name "blink_task",
priority Normal and stack size 128 * 4 = 512, then entry `StartTask02` with
name "hello_task", priority Normal and stack size 512. The two priorities and
the two stack sizes are equal, and no call of a task loop (pin write, print,
delay) is among the calls of the initialiser. -/
theorem MX_FREERTOS_Init_creates (env : Nat → Int) (g : Globals) (k : Nat) :
    (MX_FREERTOS_Init.exec (2 + k) env (.line93, g)).1 =
        [Effect.osThreadNew .StartTask01 none ⟨"blink_task", .osPriorityNormal, 512⟩,
         Effect.osThreadNew .StartTask02 none ⟨"hello_task", .osPriorityNormal, 512⟩] ∧
      blink_task_attributes.priority = hello_task_attributes.priority ∧
      blink_task_attributes.stack_size = hello_task_attributes.stack_size ∧
      ∀ e ∈ (MX_FREERTOS_Init.exec (2 + k) env (.line93, g)).1, e.isTaskCall = false := by
  rw [MX_FREERTOS_Init_exec]
  refine ⟨rfl, rfl, rfl, ?_⟩
  intro e he
  simp only [List.mem_cons, List.mem_singleton, List.not_mem_nil, or_false] at he
  rcases he with he | he <;> subst he <;> rfl

/-- C4: `MX_FREERTOS_Init` does not inspect the results of `osThreadNew`. For
every pair of results (`0` is `NULL`, a failed creation) it issues the same
two calls in the same order, stores the first result in `blink_taskHandle` and
the second in `hello_taskHandle`, and returns. The scheduler then holds
`StartTask01` exactly when the first result is a handle and `StartTask02`
exactly when the second is, so a task whose creation failed is never run and
the other task is still created. -/
theorem MX_FREERTOS_Init_unchecked (env : Nat → Int) (g : Globals) (k : Nat) :
    (MX_FREERTOS_Init.exec (2 + k) env (.line93, g)).1 =
        [Effect.osThreadNew .StartTask01 none blink_task_attributes,
         Effect.osThreadNew .StartTask02 none hello_task_attributes] ∧
      (MX_FREERTOS_Init.exec (2 + k) env (.line93, g)).2 =
        (.line106, { blink_taskHandle := env 0, hello_taskHandle := env 1 }) ∧
      MX_FREERTOS_Init.instr (MX_FREERTOS_Init.exec (2 + k) env (.line93, g)).2 = none ∧
      registered (MX_FREERTOS_Init.exec (2 + k) env (.line93, g)).1 env =
        (if env 0 = 0 then [] else [ThreadFunc.StartTask01]) ++
          (if env 1 = 0 then [] else [ThreadFunc.StartTask02]) := by
  rw [MX_FREERTOS_Init_exec]
  refine ⟨rfl, rfl, rfl, ?_⟩
  by_cases h0 : env 0 = 0 <;> by_cases h1 : env 1 = 0 <;> simp [registered, h0, h1]

/-- C5 (as stated) fails: with a window of 1 ms `StartTask02` has emitted one
"Hello World" line (the one written at time 0), whether the instant 1 itself
is counted or not, while `1 / 800 = 0`. -/
theorem floor_fails_for_hello :
    (StartTask02.simulate 1 2 (fun _ => 0) 0 Emit).map
        (fun r => (logLines (calls r)).length) = some 1 ∧
      (StartTask02.simulate (1 + 1) 2 (fun _ => 0) 0 Emit).map
        (fun r => (logLines (calls r)).length) = some 1 ∧
      (StartTask02.simulate 1 2 (fun _ => 0) 0 Emit).map
        (fun r => (logLines (calls r)).length) ≠ some (1 / 800) := by
  decide

/-- C5 (amended): under ideal timing, for every `T` and every fuel that covers
the window, the simulation of `T` ms of `StartTask02` returns, and the lines
written before time `T` are `(T + 799) / 800` copies of the "Hello World"
line: `T / 800` of them when `T` is a multiple of 800, `T / 800 + 1`
otherwise. -/
theorem hello_count (T fuel : Nat) (env : Nat → Int) (h : 2 * (T / 800 + 1) ≤ fuel) :
    ∃ r, StartTask02.simulate T fuel env 0 Emit = some r ∧
      logLines (calls r) = List.replicate ((T + 799) / 800) "Task02 - Hello World\n\r" ∧
      (T % 800 = 0 → (logLines (calls r)).length = T / 800) ∧
      (T % 800 ≠ 0 → (logLines (calls r)).length = T / 800 + 1) := by
  obtain ⟨r, hr, hl, _⟩ := sim02_fuel T fuel env h
  refine ⟨r, hr, hl, ?_, ?_⟩
  · intro hT; rw [hl, List.length_replicate]; omega
  · intro hT; rw [hl, List.length_replicate]; omega

/-- C5 (amended) at 2400 ms: exactly 3 "Hello World" lines. -/
theorem hello_count_witness :
    2 * (2400 / 800 + 1) ≤ 8 ∧
      ∃ r, StartTask02.simulate 2400 8 (fun _ => 0) 0 Emit = some r ∧
        (logLines (calls r)).length = 3 := by
  refine ⟨by decide, ?_⟩
  obtain ⟨r, hr, _, h3, _⟩ := hello_count 2400 8 (fun _ => 0) (by decide)
  exact ⟨r, hr, h3 (by decide)⟩

/-- C6 (as stated) fails: with a window of 600 ms `StartTask01` has written one
ON/OFF pair (ON at time 0, OFF at time 500), whether the instant 600 itself is
counted or not, while `600 / 1000 = 0`. -/
theorem floor_fails_for_pairs :
    (StartTask01.simulate 600 6 (fun _ => 0) 0 OutputHigh).map
        (fun r => onOffPairs (logLines (calls r))) = some 1 ∧
      (StartTask01.simulate (600 + 1) 6 (fun _ => 0) 0 OutputHigh).map
        (fun r => onOffPairs (logLines (calls r))) = some 1 ∧
      (StartTask01.simulate 600 6 (fun _ => 0) 0 OutputHigh).map
        (fun r => onOffPairs (logLines (calls r))) ≠ some (600 / 1000) := by
  decide

/-- C6 (amended): under ideal timing, for every `T` and every fuel that covers
the window, the simulation of `T` ms of `StartTask01` returns, and the number
of ON/OFF pairs written before time `T` is `(T + 499) / 1000`: `T / 1000`
when `T % 1000 ≤ 500`, `T / 1000 + 1` otherwise. -/
theorem blink_pairs (T fuel : Nat) (env : Nat → Int) (h : 6 * (T / 1000 + 1) ≤ fuel) :
    ∃ r, StartTask01.simulate T fuel env 0 OutputHigh = some r ∧
      onOffPairs (logLines (calls r)) = (T + 499) / 1000 ∧
      (T % 1000 ≤ 500 → onOffPairs (logLines (calls r)) = T / 1000) ∧
      (500 < T % 1000 → onOffPairs (logLines (calls r)) = T / 1000 + 1) := by
  obtain ⟨r, hr, hl, _⟩ := sim01_fuel T fuel env h
  have hp : onOffPairs (logLines (calls r)) = (T + 499) / 500 / 2 := by
    rw [hl, onOffPairs_alternate]
  refine ⟨r, hr, ?_, ?_, ?_⟩
  · rw [hp]; omega
  · intro hT; rw [hp]; omega
  · intro hT; rw [hp]; omega

/-- C6 (amended) at 1600 ms: two ON/OFF pairs (OFF lines at 500 and 1500). -/
theorem blink_pairs_witness :
    6 * (1600 / 1000 + 1) ≤ 12 ∧
      ∃ r, StartTask01.simulate 1600 12 (fun _ => 0) 0 OutputHigh = some r ∧
        onOffPairs (logLines (calls r)) = 2 := by
  refine ⟨by decide, ?_⟩
  obtain ⟨r, hr, h2, _⟩ := blink_pairs 1600 12 (fun _ => 0) (by decide)
  exact ⟨r, hr, h2⟩

/-- C7 (as stated) fails: simulating 2000 ms of `StartTask01` yields 2 "ON"
lines and 2 "OFF" lines, not 4 and 4 (and 3 and 2 when the instant 2000
itself is counted). -/
theorem four_lines_fails_at_2000 :
    (StartTask01.simulate 2000 12 (fun _ => 0) 0 OutputHigh).map
        (fun r => ((logLines (calls r)).count ledOn, (logLines (calls r)).count ledOff)) =
        some (2, 2) ∧
      (StartTask01.simulate (2000 + 1) 18 (fun _ => 0) 0 OutputHigh).map
        (fun r => ((logLines (calls r)).count ledOn, (logLines (calls r)).count ledOff)) =
        some (3, 2) ∧
      (StartTask01.simulate 2000 12 (fun _ => 0) 0 OutputHigh).map
        (fun r => ((logLines (calls r)).count ledOn, (logLines (calls r)).count ledOff)) ≠
        some (4, 4) := by
  decide

/-- C7 (amended): under ideal timing, for every fuel that covers the window,
simulating 2000 ms of `StartTask01` returns with exactly 4 writes of line PA5
(high, low, high, low) and exactly 4 log lines, 2 "ON" and 2 "OFF", in the
order ON, OFF, ON, OFF. -/
theorem blink_2000 (fuel : Nat) (env : Nat → Int) (h : 18 ≤ fuel) :
    ∃ r, StartTask01.simulate 2000 fuel env 0 OutputHigh = some r ∧
      pinWrites .GPIOA GPIO_PIN_5 (calls r) =
        [.GPIO_PIN_SET, .GPIO_PIN_RESET, .GPIO_PIN_SET, .GPIO_PIN_RESET] ∧
      logLines (calls r) =
        ["Task01 - led ON\n\r", "Task01 - led OFF\n\r",
         "Task01 - led ON\n\r", "Task01 - led OFF\n\r"] ∧
      (logLines (calls r)).count "Task01 - led ON\n\r" = 2 ∧
      (logLines (calls r)).count "Task01 - led OFF\n\r" = 2 := by
  obtain ⟨r, hr, hl, hp⟩ := sim01_fuel 2000 fuel env h
  refine ⟨r, hr, ?_, ?_, ?_, ?_⟩
  · rw [hp]; rfl
  · rw [hl]; rfl
  · rw [hl]; decide
  · rw [hl]; decide

/-- C7 (amended) with 18 calls of fuel and every call returning 0. -/
theorem blink_2000_witness :
    18 ≤ 18 ∧
      ∃ r, StartTask01.simulate 2000 18 (fun _ => 0) 0 OutputHigh = some r ∧
        logLines (calls r) = [ledOn, ledOff, ledOn, ledOff] := by
  refine ⟨by decide, ?_⟩
  obtain ⟨r, hr, _, hl, _⟩ := blink_2000 18 (fun _ => 0) (by decide)
  exact ⟨r, hr, hl⟩

/-- C8: under ideal timing, for every fuel that covers the window, simulating
4000 ms returns for both tasks, with exactly 8 log lines of `StartTask01`
(ON, OFF, ... starting with ON) and 5 log lines of `StartTask02` (all the
"Hello World" line); and in every order-preserving merge of the two logs the
lines of Task A are that alternating sequence and the lines of Task B are
those five identical lines. -/
theorem concurrent_4000 (envA envB : Nat → Int) (fuelA fuelB : Nat)
    (zs : List (TaskId × String))
    (hA : 6 * (4000 / 1000 + 1) ≤ fuelA) (hB : 2 * (4000 / 800 + 1) ≤ fuelB)
    (hz : isInterleaving
      (tagged .A [ledOn, ledOff, ledOn, ledOff, ledOn, ledOff, ledOn, ledOff])
      (tagged .B (List.replicate 5 helloWorld)) zs = true) :
    (∃ ra, StartTask01.simulate 4000 fuelA envA 0 OutputHigh = some ra ∧
        logLines (calls ra) = [ledOn, ledOff, ledOn, ledOff, ledOn, ledOff, ledOn, ledOff]) ∧
      (∃ rb, StartTask02.simulate 4000 fuelB envB 0 Emit = some rb ∧
        logLines (calls rb) = List.replicate 5 helloWorld) ∧
      project .A zs = [ledOn, ledOff, ledOn, ledOff, ledOn, ledOff, ledOn, ledOff] ∧
      project .B zs = List.replicate 5 helloWorld := by
  obtain ⟨ra, hra, hla, _⟩ := sim01_fuel 4000 fuelA envA hA
  obtain ⟨rb, hrb, hlb, _⟩ := sim02_fuel 4000 fuelB envB hB
  have hp := project_interleaving zs _ _ hz
  exact ⟨⟨ra, hra, by rw [hla]; rfl⟩, ⟨rb, hrb, by rw [hlb]⟩, hp.1, hp.2⟩

/-- C8 at the merge of the two logs by time of writing (A at 0, 500, ...,
3500 and B at 0, 800, ..., 3200). -/
theorem concurrent_4000_witness :
    project .A
        [(TaskId.A, ledOn), (.B, helloWorld), (.A, ledOff), (.B, helloWorld), (.A, ledOn),
         (.A, ledOff), (.B, helloWorld), (.A, ledOn), (.B, helloWorld), (.A, ledOff),
         (.A, ledOn), (.B, helloWorld), (.A, ledOff)] =
        [ledOn, ledOff, ledOn, ledOff, ledOn, ledOff, ledOn, ledOff] ∧
      project .B
        [(TaskId.A, ledOn), (.B, helloWorld), (.A, ledOff), (.B, helloWorld), (.A, ledOn),
         (.A, ledOff), (.B, helloWorld), (.A, ledOn), (.B, helloWorld), (.A, ledOff),
         (.A, ledOn), (.B, helloWorld), (.A, ledOff)] =
        List.replicate 5 helloWorld :=
  (concurrent_4000 (fun _ => 0) (fun _ => 0) 30 12 _ (by decide) (by decide) (by decide)).2.2

/-- C9: readback law. `StartTask02` writes no digital line and `StartTask01`
writes line PA5 only. For every merge `zs` of the first `n + 1` calls of Task A
with the first `m` calls of Task B, run on any sink `k`: the level of PA5 is
the level of Task A's most recent write, which is high when `n % 6 < 3` (the
write of line 120 is the latest) and low otherwise (the write of line 124 is
the latest), and every other line keeps its level. Under ideal timing the
level of PA5 at time `t`, once the calls made at instants up to `t` are done,
is high exactly when `t % 1000 < 500`. -/
theorem readback_law (envA envB : Nat → Int) (n m : Nat) (k : Sink)
    (zs : List (TaskId × Effect)) (t fuel : Nat)
    (hz : isInterleaving (tagged .A (StartTask01.exec (n + 1) envA OutputHigh).1)
      (tagged .B (StartTask02.exec m envB Emit).1) zs = true)
    (hf : 6 * ((t + 1) / 1000 + 1) ≤ fuel) :
    (∀ p i, pinWrites p i (StartTask02.exec m envB Emit).1 = []) ∧
      (∀ p i, p ≠ .GPIOA ∨ i ≠ GPIO_PIN_5 →
        pinWrites p i (StartTask01.exec (n + 1) envA OutputHigh).1 = []) ∧
      (pinWrites .GPIOA GPIO_PIN_5 (StartTask01.exec (n + 1) envA OutputHigh).1).getLast? =
        some ((k.run (zs.map Prod.snd)).level .GPIOA GPIO_PIN_5) ∧
      (k.run (zs.map Prod.snd)).level .GPIOA GPIO_PIN_5 =
        (if n % 6 < 3 then .GPIO_PIN_SET else .GPIO_PIN_RESET) ∧
      (∀ p i, p ≠ .GPIOA ∨ i ≠ GPIO_PIN_5 →
        (k.run (zs.map Prod.snd)).level p i = k.level p i) ∧
      ∃ r, StartTask01.simulate (t + 1) fuel envA 0 OutputHigh = some r ∧
        ((k.run (calls r)).level .GPIOA GPIO_PIN_5 = .GPIO_PIN_SET ↔ t % 1000 < 500) := by
  have hB : ∀ p i, pinWrites p i (StartTask02.exec m envB Emit).1 = [] :=
    fun p i => StartTask02_no_writes p i m envB Emit
  have hA : ∀ p i, p ≠ .GPIOA ∨ i ≠ GPIO_PIN_5 →
      pinWrites p i (StartTask01.exec (n + 1) envA OutputHigh).1 = [] :=
    fun p i hpi => StartTask01_frame p i hpi (n + 1) envA OutputHigh
  have hlast : (pinWrites .GPIOA GPIO_PIN_5 (StartTask01.exec (n + 1) envA OutputHigh).1).getLast? =
      some (if n % 6 < 3 then GPIO_PinState.GPIO_PIN_SET else .GPIO_PIN_RESET) := by
    rw [pinWrites_StartTask01, getLast?_alternate]
    have h0 : (n + 1 + 2) / 3 ≠ 0 := by omega
    rw [if_neg h0]
    by_cases h3 : n % 6 < 3
    · have h1 : (n + 1 + 2) / 3 % 2 = 1 := by omega
      rw [if_pos h1, if_pos h3]
    · have h1 : ¬ (n + 1 + 2) / 3 % 2 = 1 := by omega
      rw [if_neg h1, if_neg h3]
  have hlev : (k.run (zs.map Prod.snd)).level .GPIOA GPIO_PIN_5 =
      (if n % 6 < 3 then GPIO_PinState.GPIO_PIN_SET else .GPIO_PIN_RESET) := by
    rw [run_level, pinWrites_interleaving _ _ _ _ zs hz (hB _ _), hlast]
    rfl
  refine ⟨hB, hA, ?_, hlev, ?_, ?_⟩
  · rw [hlast, hlev]
  · intro p i hpi
    rw [run_level, pinWrites_interleaving _ _ _ _ zs hz (hB _ _), hA p i hpi]
    rfl
  · obtain ⟨r, hr, _, hp⟩ := sim01_fuel (t + 1) fuel envA hf
    refine ⟨r, hr, ?_⟩
    rw [run_level, hp, getLast?_alternate]
    have h0 : (t + 1 + 499) / 500 ≠ 0 := by omega
    rw [if_neg h0]
    by_cases h3 : t % 1000 < 500
    · have h1 : (t + 1 + 499) / 500 % 2 = 1 := by omega
      rw [if_pos h1]
      simp [h3]
    · have h1 : ¬ (t + 1 + 499) / 500 % 2 = 1 := by omega
      rw [if_neg h1]
      simp [h3]

/-- C9 on a sink with every line low: after the calls set-high (A), hello (B),
ON (A), delay (A), set-low (A) line PA5 is low, and at time 250 it is high. -/
theorem readback_law_witness :
    (Sink.run ⟨fun _ _ => .GPIO_PIN_RESET, []⟩
        [Effect.HAL_GPIO_WritePin .GPIOA GPIO_PIN_5 .GPIO_PIN_SET, .printf helloWorld,
         .printf ledOn, .osDelay 500,
         .HAL_GPIO_WritePin .GPIOA GPIO_PIN_5 .GPIO_PIN_RESET]).level .GPIOA GPIO_PIN_5 =
        .GPIO_PIN_RESET ∧
      ∃ r, StartTask01.simulate (250 + 1) 6 (fun _ => 0) 0 OutputHigh = some r ∧
        ((Sink.run ⟨fun _ _ => .GPIO_PIN_RESET, []⟩ (calls r)).level .GPIOA GPIO_PIN_5 =
          .GPIO_PIN_SET ↔ 250 % 1000 < 500) :=
  have h := readback_law (fun _ => 0) (fun _ => 0) 3 1 ⟨fun _ _ => .GPIO_PIN_RESET, []⟩
    [(.A, .HAL_GPIO_WritePin .GPIOA GPIO_PIN_5 .GPIO_PIN_SET), (.B, .printf helloWorld),
     (.A, .printf ledOn), (.A, .osDelay 500),
     (.A, .HAL_GPIO_WritePin .GPIOA GPIO_PIN_5 .GPIO_PIN_RESET)] 250 6 (by decide) (by decide)
  ⟨h.2.2.2.1, h.2.2.2.2.2⟩

/-- C10: fire-and-forget. For any two sequences of call results, `StartTask01`
issues the same calls with the same arguments and reaches the same program
point after every number of steps, and so does `StartTask02`; no program point
of either task chooses its successor by the result of its call; and under any
results the first `6 * n` calls of `StartTask01` are `n` full passes (write,
print, delay, write, print, delay) and the first `2 * n` calls of `StartTask02`
are `n` full passes (print, delay), so no call is repeated or skipped. -/
theorem fire_and_forget (env env' : Nat → Int) (n : Nat) :
    StartTask01.exec n env OutputHigh = StartTask01.exec n env' OutputHigh ∧
      StartTask02.exec n env Emit = StartTask02.exec n env' Emit ∧
      (∀ (s : Loc01) (r r' : Int), StartTask01.next s r = StartTask01.next s r') ∧
      (∀ (s : Loc02) (r r' : Int), StartTask02.next s r = StartTask02.next s r') ∧
      (StartTask01.exec (6 * n) env OutputHigh).1 = (List.replicate n blinkCycle).flatten ∧
      (StartTask02.exec (2 * n) env Emit).1 = (List.replicate n helloCycle).flatten :=
  ⟨exec_reply_irrelevant _ StartTask01_next_irrelevant n env env' OutputHigh,
   exec_reply_irrelevant _ StartTask02_next_irrelevant n env env' Emit,
   StartTask01_next_irrelevant, StartTask02_next_irrelevant,
   by rw [StartTask01_cycles], by rw [StartTask02_cycles]⟩

end AppFreertos
